import Mathlib

/-!
Verification of the BIGHORN B2B aggregate-discount engine.

The repository contains two parallel implementations of the same idea:

* `src/unnamed/part_000` — the percent-differential model: per-line tier
  percents are compared with the aggregate tier percent and the engine emits
  the multiplicative difference discount (`calculateDifferenceDiscount`).
* `src/extensions/b2b-test/src/run.js` — the price-anchored model: per-line
  current prices are compared with a target price derived from a list price
  and the aggregate tier percent (`calculateDiscountPercent`).

JavaScript numbers are embedded as exact rationals (`ℚ`).  `Math.round`
rounds half towards positive infinity, which on the reals is
`fun x => Int.floor (x + 1/2)`; rounding to two decimals therefore is
`round2` below.  JavaScript `Array.prototype.sort` is stable (ES2019), so the
descending sort in `getTierForQuantity` is embedded as a stable insertion
sort with the same comparator.  Fallible JSON parsing is embedded by letting
a metafield carry either a well-formed payload or an unspecified malformed one,
with `jsonParse` returning `Except`.  Optional chaining (`a?.b`) is embedded
with `Option` and `Option.bind`.
-/

/-- Rounding as `Math.round(x * 100) / 100`: two decimal places, half up. -/
def round2 (x : ℚ) : ℚ := ((⌊x * 100 + 1 / 2⌋ : ℤ) : ℚ) / 100

/-- Does `needle` match at the head of `hay`? (helper for substring search) -/
def subAt : List Char → List Char → Bool
  | [], _ => true
  | _ :: _, [] => false
  | a :: as, b :: bs => a == b && subAt as bs

/-- Does `needle` occur contiguously inside `hay`?  Embeds the JavaScript
`String.prototype.includes`. -/
def hasSub (needle : List Char) : List Char → Bool
  | [] => subAt needle []
  | b :: bs => subAt needle (b :: bs) || hasSub needle bs

/-- JavaScript `s.includes(sub)`. -/
def jsIncludes (s sub : String) : Bool := hasSub sub.data s.data

/-- JavaScript `s.toLowerCase()`; the keywords matched by the classifier are
ASCII, for which `Char.toLower` agrees with the JavaScript mapping. -/
def jsToLower (s : String) : String := ⟨s.data.map Char.toLower⟩

/-! ## Percent-differential implementation (`src/unnamed/part_000`) -/

/-- A tier row of the configuration: `{ min_quantity, discount_percent }`. -/
structure Tier where
  min_quantity : ℚ
  discount_percent : ℚ
deriving DecidableEq

/-- The per-catalog slice of the configuration.  The `tiers` key may be
absent in a parsed JSON document (`!catalogConfig.tiers`). -/
structure CatalogConfig where
  tiers : Option (List Tier)
deriving DecidableEq

/-- The parsed configuration document, as accessed by the code: only the two
keys `guidefitters` and `resellers` are ever read, each possibly absent. -/
structure Config where
  guidefitters : Option CatalogConfig
  resellers : Option CatalogConfig
deriving DecidableEq

/-- Embedding of `DEFAULT_CONFIG` from `src/unnamed/part_000`. -/
def DEFAULT_CONFIG : Config :=
  { guidefitters := some ⟨some [⟨12, 14.07⟩, ⟨48, 29.5⟩]⟩
    resellers := some ⟨some [⟨48, 9.1⟩]⟩ }

/-- A raw metafield payload: either a document that `JSON.parse` accepts,
carrying the parsed configuration, or one on which it throws. -/
inductive JsonVal where
  | invalid : JsonVal
  | valid : Config → JsonVal
deriving DecidableEq

/-- Embedding of `JSON.parse` on a raw payload: throwing becomes `Except.error`. -/
def jsonParse : JsonVal → Except Unit Config
  | .invalid => .error ()
  | .valid c => .ok c

/-- The shop metafield object; `value` may be absent (`null` or an empty,
hence falsy, string). -/
structure Metafield where
  value : Option JsonVal
deriving DecidableEq

/-- Embedding of `getConfig` from `src/unnamed/part_000`: use the parsed metafield value
when present and well formed, otherwise fall back to `DEFAULT_CONFIG` (the
`catch` branch only logs and falls through).  Total by construction: no
branch throws. -/
def getConfig (shopMetafield : Option Metafield) : Config :=
  match shopMetafield with
  | some mf =>
    match mf.value with
    | some v =>
      match jsonParse v with
      | .ok c => c
      | .error _ => DEFAULT_CONFIG
    | none => DEFAULT_CONFIG
  | none => DEFAULT_CONFIG

/-- Dynamic property access `config[catalogType]`; `getCatalogType` only ever
produces the two known keys. -/
def configLookup (config : Config) (catalogType : String) : Option CatalogConfig :=
  if catalogType = "guidefitters" then config.guidefitters
  else if catalogType = "resellers" then config.resellers
  else none

/-- Tail node of `buyerIdentity?.purchasingCompany?.location?.catalog?.title`. -/
structure Catalog where
  title : Option String
deriving DecidableEq

structure CompanyLocation where
  catalog : Option Catalog
deriving DecidableEq

structure PurchasingCompany where
  location : Option CompanyLocation
deriving DecidableEq

structure BuyerIdentity where
  purchasingCompany : Option PurchasingCompany
deriving DecidableEq

/-- The optional-chain `buyerIdentity?.purchasingCompany?.location?.catalog?.title`. -/
def catalogTitleOf (buyerIdentity : Option BuyerIdentity) : Option String :=
  (((buyerIdentity.bind (·.purchasingCompany)).bind (·.location)).bind (·.catalog)).bind (·.title)

/-- Embedding of `getCatalogType` (identical in both source files).  JavaScript
`!catalogTitle` is true for `null`, `undefined` and the empty string, hence
the explicit empty-string branch. -/
def getCatalogType (buyerIdentity : Option BuyerIdentity) : Option String :=
  match catalogTitleOf buyerIdentity with
  | none => none
  | some catalogTitle =>
    if catalogTitle = "" then none
    else
      let titleLower := jsToLower catalogTitle
      if jsIncludes titleLower ("reseller") then some ("resellers")
      else if jsIncludes titleLower ("guidefitter") then some ("guidefitters")
      else some ("guidefitters")

instance tierDescDecidable : DecidableRel (fun a b : Tier => b.min_quantity ≤ a.min_quantity) :=
  fun a b => inferInstanceAs (Decidable (b.min_quantity ≤ a.min_quantity))

instance tierDescTotal : IsTotal Tier (fun a b => b.min_quantity ≤ a.min_quantity) :=
  ⟨fun a b => le_total b.min_quantity a.min_quantity⟩

instance tierDescTrans : IsTrans Tier (fun a b => b.min_quantity ≤ a.min_quantity) :=
  ⟨fun _ _ _ h1 h2 => le_trans h2 h1⟩

/-- Embedding of `getTierForQuantity` from `src/unnamed/part_000`: copy the table, sort it
descending by `min_quantity` (stable, like the JavaScript engine sort), and
return the first tier whose threshold the quantity meets. -/
def getTierForQuantity (tiers : List Tier) (quantity : ℚ) : Option Tier :=
  (List.insertionSort (fun a b => b.min_quantity ≤ a.min_quantity) tiers).find?
    (fun t => decide (t.min_quantity ≤ quantity))

/-- Embedding of `calculateDifferenceDiscount` from `src/unnamed/part_000`.  The source
names the intermediate values `baseMultiplier = 1 - perSku/100`,
`targetMultiplier = 1 - aggregate/100` and
`additionalMultiplier = targetMultiplier / baseMultiplier`; they are inlined
here. -/
def calculateDifferenceDiscount (aggregateDiscountPercent perSkuDiscountPercent : ℚ) : ℚ :=
  if aggregateDiscountPercent ≤ perSkuDiscountPercent then 0
  else if perSkuDiscountPercent = 0 then aggregateDiscountPercent
  else
    round2 ((1 - (1 - aggregateDiscountPercent / 100) / (1 - perSkuDiscountPercent / 100)) * 100)

/-- The fields the cart scan reads from a product. -/
structure Product where
  title : String
  hasAnyTag : Bool
deriving DecidableEq

structure Merchandise where
  product : Option Product
deriving DecidableEq

structure CartLine where
  id : String
  quantity : ℚ
  merchandise : Option Merchandise
deriving DecidableEq

structure Cart where
  buyerIdentity : Option BuyerIdentity
  lines : List CartLine
deriving DecidableEq

structure Shop where
  metafield : Option Metafield
deriving DecidableEq

structure FnInput where
  cart : Cart
  shop : Option Shop
deriving DecidableEq

/-- The record the scan loop pushes for each eligible line. -/
structure EligibleLine where
  id : String
  quantity : ℚ
  productTitle : String
deriving DecidableEq

/-- The eligibility test of the scan loop: `product?.hasAnyTag === true`. -/
def lineEligible (line : CartLine) : Bool :=
  match line.merchandise with
  | none => false
  | some m =>
    match m.product with
    | none => false
    | some p => p.hasAnyTag

/-- One iteration of the scan loop of `run`: the entry pushed for a tagged
line, `none` for an untagged or product-less line. -/
def eligEntry (line : CartLine) : Option EligibleLine :=
  match line.merchandise with
  | none => none
  | some m =>
    match m.product with
    | none => none
    | some p =>
      if p.hasAnyTag then some ⟨line.id, line.quantity, p.title⟩ else none

/-- The scan loop of `run`: collect `{id, quantity, productTitle}` for every
line whose product carries the qualifying tag. -/
def eligibleLines (lines : List CartLine) : List EligibleLine :=
  lines.filterMap eligEntry

/-- Running total `totalEligibleQuantity`, accumulated by the same scan loop. -/
def totalEligibleQuantity (lines : List CartLine) : ℚ :=
  ((eligibleLines lines).map (·.quantity)).sum

/-- Expression `perSkuTier ? perSkuTier.discount_percent : 0` for a line quantity. -/
def perSkuDiscountFor (tiers : List Tier) (quantity : ℚ) : ℚ :=
  match getTierForQuantity tiers quantity with
  | some t => t.discount_percent
  | none => 0

/-- One emitted discount directive.  The JavaScript object carries the
aggregate quantity inside the message string and the percentage as a decimal
string; the embedding keeps both as the underlying numbers. -/
structure DiscountRecord where
  messageQuantity : ℚ
  targetLineId : String
  percentageValue : ℚ
deriving DecidableEq

structure FunctionResult where
  discounts : List DiscountRecord
deriving DecidableEq

/-- One iteration of the emission loop of `run`: the record pushed for an
eligible line when its computed difference discount (`discountToApply` in the
source) is strictly positive, `none` otherwise. -/
def lineDiscountEntry (tiers : List Tier) (aggregatePercent total : ℚ)
    (l : EligibleLine) : Option DiscountRecord :=
  if 0 < calculateDifferenceDiscount aggregatePercent (perSkuDiscountFor tiers l.quantity) then
    some ⟨total, l.id,
      calculateDifferenceDiscount aggregatePercent (perSkuDiscountFor tiers l.quantity)⟩
  else none

/-- The emission loop of `run`: one record per eligible line whose computed
difference discount is strictly positive. -/
def lineDiscounts (tiers : List Tier) (aggregatePercent total : ℚ)
    (elig : List EligibleLine) : List DiscountRecord :=
  elig.filterMap (lineDiscountEntry tiers aggregatePercent total)

/-- Embedding of `run` from `src/unnamed/part_000`. -/
def run (input : FnInput) : FunctionResult :=
  match getCatalogType input.cart.buyerIdentity with
  | none => ⟨[]⟩
  | some catalogType =>
    let config := getConfig (input.shop.bind (·.metafield))
    match configLookup config catalogType with
    | none => ⟨[]⟩
    | some catalogConfig =>
      match catalogConfig.tiers with
      | none => ⟨[]⟩
      | some tiers =>
        if tiers.length = 0 then ⟨[]⟩
        else
          let elig := eligibleLines input.cart.lines
          let total := totalEligibleQuantity input.cart.lines
          if elig.length = 0 ∨ total = 0 then ⟨[]⟩
          else
            match getTierForQuantity tiers total with
            | none => ⟨[]⟩
            | some aggregateTier =>
              ⟨lineDiscounts tiers aggregateTier.discount_percent total elig⟩

/-! ## Price-anchored implementation (`src/extensions/b2b-test/src/run.js`) -/

/-- A tier row `{ min, percent }` of the price-anchored configuration. -/
structure TierPA where
  min : ℚ
  percent : ℚ
deriving DecidableEq

/-- Per-catalog slice: `base_percent` and `tiers`, each possibly absent. -/
structure CatalogConfigPA where
  base_percent : Option ℚ
  tiers : Option (List TierPA)
deriving DecidableEq

structure ConfigPA where
  guidefitters : Option CatalogConfigPA
  resellers : Option CatalogConfigPA
deriving DecidableEq

inductive JsonValPA where
  | invalid : JsonValPA
  | valid : ConfigPA → JsonValPA
deriving DecidableEq

def jsonParsePA : JsonValPA → Except Unit ConfigPA
  | .invalid => .error ()
  | .valid c => .ok c

structure MetafieldPA where
  value : Option JsonValPA
deriving DecidableEq

/-- Embedding of `getTierConfig` from `run.js`: `null` for an absent value, `null` when
`JSON.parse` throws (the `catch` branch logs and returns `null`); there is no
default table in this implementation. -/
def getTierConfig (shopMetafield : Option MetafieldPA) : Option ConfigPA :=
  match shopMetafield with
  | none => none
  | some mf =>
    match mf.value with
    | none => none
    | some v =>
      match jsonParsePA v with
      | .ok c => some c
      | .error _ => none

def configLookupPA (config : ConfigPA) (catalogType : String) : Option CatalogConfigPA :=
  if catalogType = "guidefitters" then config.guidefitters
  else if catalogType = "resellers" then config.resellers
  else none

instance tierPADescDecidable : DecidableRel (fun a b : TierPA => b.min ≤ a.min) :=
  fun a b => inferInstanceAs (Decidable (b.min ≤ a.min))

instance tierPADescTotal : IsTotal TierPA (fun a b => b.min ≤ a.min) :=
  ⟨fun a b => le_total b.min a.min⟩

instance tierPADescTrans : IsTrans TierPA (fun a b => b.min ≤ a.min) :=
  ⟨fun _ _ _ h1 h2 => le_trans h2 h1⟩

/-- Embedding of the `run.js` `getTierForQuantity`: same algorithm, with a guard for an
absent or empty tier list. -/
def getTierForQuantityPA (tiers : Option (List TierPA)) (quantity : ℚ) : Option TierPA :=
  match tiers with
  | none => none
  | some ts =>
    if ts.length = 0 then none
    else
      (List.insertionSort (fun a b : TierPA => b.min ≤ a.min) ts).find?
        (fun t => decide (t.min ≤ quantity))

/-- Embedding of `calculateDiscountPercent` from `run.js`. -/
def calculateDiscountPercent (currentPrice targetPrice : ℚ) : ℚ :=
  if currentPrice ≤ targetPrice then 0
  else round2 ((currentPrice - targetPrice) / currentPrice * 100)

/-- The result of `parseFloat` on a metafield string: a number, or `NaN`. -/
inductive PFloat where
  | nan : PFloat
  | val : ℚ → PFloat
deriving DecidableEq

/-- A price-bearing metafield; `value = none` embeds a missing value (and the
empty string, which is falsy and parses to `NaN`, so it is skipped the same
way). -/
structure PriceMetafield where
  value : Option PFloat
deriving DecidableEq

structure VariantPA where
  id : String
  listPriceMetafield : Option PriceMetafield
  product : Option Product
deriving DecidableEq

structure AmountPerQuantity where
  amount : Option PFloat
deriving DecidableEq

structure CostPA where
  amountPerQuantity : Option AmountPerQuantity
deriving DecidableEq

structure CartLinePA where
  id : String
  quantity : ℚ
  merchandise : Option VariantPA
  cost : Option CostPA
deriving DecidableEq

structure CartPA where
  buyerIdentity : Option BuyerIdentity
  lines : List CartLinePA
deriving DecidableEq

structure ShopPA where
  tierConfigMetafield : Option MetafieldPA
deriving DecidableEq

structure FnInputPA where
  cart : CartPA
  shop : Option ShopPA
deriving DecidableEq

/-- The record the price-anchored scan loop pushes for each eligible line. -/
structure EligibleLinePA where
  id : String
  quantity : ℚ
  currentPrice : ℚ
  listPrice : ℚ
  productTitle : String
deriving DecidableEq

/-- The scan loop of the price-anchored `run`: a line is kept iff its product
carries the qualifying tag and both a parseable list price and a parseable
current price are present; lines failing the price checks are logged and
skipped. -/
def eligibleLinesPA (lines : List CartLinePA) : List EligibleLinePA :=
  lines.filterMap fun line =>
    match line.merchandise with
    | none => none
    | some variant =>
      match variant.product with
      | none => none
      | some p =>
        if p.hasAnyTag then
          match (variant.listPriceMetafield.bind (·.value)) with
          | none => none
          | some .nan => none
          | some (.val listPrice) =>
            match ((line.cost.bind (·.amountPerQuantity)).bind (·.amount)) with
            | none => none
            | some .nan => none
            | some (.val currentPrice) =>
              some ⟨line.id, line.quantity, currentPrice, listPrice, p.title⟩
        else none

def aggregateQuantityPA (lines : List CartLinePA) : ℚ :=
  ((eligibleLinesPA lines).map (·.quantity)).sum

/-- Embedding of `run` from `run.js`.  When the aggregate quantity meets no tier the code
falls back to `catalogConfig.base_percent` instead of exiting.  If
`base_percent` is itself absent, `aggregatePercent` is `undefined`, every
`targetPrice` is `NaN`; then `currentPrice <= NaN` is false, the division
path yields `NaN`, and `NaN > 0` is false — no record is emitted for any
line; that branch is therefore embedded directly as the empty result. -/
def runPA (input : FnInputPA) : FunctionResult :=
  match getCatalogType input.cart.buyerIdentity with
  | none => ⟨[]⟩
  | some catalogType =>
    match getTierConfig (input.shop.bind (·.tierConfigMetafield)) with
    | none => ⟨[]⟩
    | some config =>
      match configLookupPA config catalogType with
      | none => ⟨[]⟩
      | some catalogConfig =>
        let elig := eligibleLinesPA input.cart.lines
        let aggregateQuantity := aggregateQuantityPA input.cart.lines
        if elig.length = 0 ∨ aggregateQuantity = 0 then ⟨[]⟩
        else
          let aggregatePercentOpt :=
            match getTierForQuantityPA catalogConfig.tiers aggregateQuantity with
            | some t => some t.percent
            | none => catalogConfig.base_percent
          match aggregatePercentOpt with
          | none => ⟨[]⟩
          | some aggregatePercent =>
            ⟨elig.filterMap fun l =>
              let targetPrice := l.listPrice * (1 - aggregatePercent / 100)
              let discountPercent := calculateDiscountPercent l.currentPrice targetPrice
              if 0 < discountPercent then
                some ⟨aggregateQuantity, l.id, discountPercent⟩
              else none⟩

/-! ## Concrete inputs used by witnesses and counterexamples -/

/-- Scenario D input: guidefitters buyer, default configuration, one tagged
line of 8 units — below the lowest threshold 12. -/
def scenarioDInput : FnInput :=
  { cart :=
      { buyerIdentity := some ⟨some ⟨some ⟨some ⟨some ("Guidefitters")⟩⟩⟩⟩
        lines :=
          [{ id := "L1"
             quantity := 8
             merchandise := some ⟨some ⟨"Birria 15 Pack", true⟩⟩ }] }
    shop := none }

/-- Price-anchored input for the C3 counterexample: a reseller buyer with a
single eligible line of 10 units, below the lowest configured threshold 48,
with list price 100, current price 100 and `base_percent` 45. -/
def cexPAInput : FnInputPA :=
  { cart :=
      { buyerIdentity := some ⟨some ⟨some ⟨some ⟨some ("Reseller Catalog")⟩⟩⟩⟩
        lines :=
          [{ id := "L1"
             quantity := 10
             merchandise := some
               { id := "V1"
                 listPriceMetafield := some ⟨some (.val 100)⟩
                 product := some ⟨"Meal 15 Pack", true⟩ }
             cost := some ⟨some ⟨some (.val 100)⟩⟩ }] }
    shop := some ⟨some ⟨some (.valid
      { guidefitters := none
        resellers := some { base_percent := some 45, tiers := some [⟨48, 50⟩] } })⟩⟩ }

/-- Price-anchored input with a malformed configuration payload and an
otherwise qualifying cart (reseller buyer, 50 tagged units with prices). -/
def cexMalformedInput : FnInputPA :=
  { cart :=
      { buyerIdentity := some ⟨some ⟨some ⟨some ⟨some ("Reseller Catalog")⟩⟩⟩⟩
        lines :=
          [{ id := "L1"
             quantity := 50
             merchandise := some
               { id := "V1"
                 listPriceMetafield := some ⟨some (.val 100)⟩
                 product := some ⟨"Meal 15 Pack", true⟩ }
             cost := some ⟨some ⟨some (.val 100)⟩⟩ }] }
    shop := some ⟨some ⟨some .invalid⟩⟩ }

/-- Input with a single eligible line (12 units, tagged). -/
def singleLineInput : FnInput :=
  { cart :=
      { buyerIdentity := some ⟨some ⟨some ⟨some ⟨some ("Guidefitters")⟩⟩⟩⟩
        lines :=
          [{ id := "L1"
             quantity := 12
             merchandise := some ⟨some ⟨"Birria 15 Pack", true⟩⟩ }] }
    shop := none }

/-- Scenario B input: guidefitters buyer, default configuration, one tagged
line of 12 units and one tagged line of 6 units (aggregate 18). -/
def scenarioBInput : FnInput :=
  { cart :=
      { buyerIdentity := some ⟨some ⟨some ⟨some ⟨some ("Guidefitters")⟩⟩⟩⟩
        lines :=
          [{ id := "L1"
             quantity := 12
             merchandise := some ⟨some ⟨"Birria 15 Pack", true⟩⟩ },
           { id := "L2"
             quantity := 6
             merchandise := some ⟨some ⟨"Butter Chicken 15 Pack", true⟩⟩ }] }
    shop := none }

/-! ## Helper lemmas -/

theorem abs_round2_sub_le (x : ℚ) : |round2 x - x| ≤ 1 / 200 := by
  have h1 : ((⌊x * 100 + 1 / 2⌋ : ℤ) : ℚ) ≤ x * 100 + 1 / 2 := Int.floor_le _
  have h2 : x * 100 + 1 / 2 < ((⌊x * 100 + 1 / 2⌋ : ℤ) : ℚ) + 1 := Int.lt_floor_add_one _
  rw [round2, abs_le]
  constructor <;> linarith

theorem round2_nonneg {x : ℚ} (hx : 0 ≤ x) : 0 ≤ round2 x := by
  have h0 : (0 : ℚ) ≤ x * 100 + 1 / 2 := by linarith
  have h : (0 : ℤ) ≤ ⌊x * 100 + 1 / 2⌋ := Int.floor_nonneg.mpr h0
  rw [round2]
  have : (0 : ℚ) ≤ ((⌊x * 100 + 1 / 2⌋ : ℤ) : ℚ) := by exact_mod_cast h
  linarith

theorem round2_le_100 {x : ℚ} (hx : x < 100) : round2 x ≤ 100 := by
  have h1 : ((⌊x * 100 + 1 / 2⌋ : ℤ) : ℚ) ≤ x * 100 + 1 / 2 := Int.floor_le _
  have h2 : ((⌊x * 100 + 1 / 2⌋ : ℤ) : ℚ) < 10001 := by linarith
  have h3 : ⌊x * 100 + 1 / 2⌋ < (10001 : ℤ) := by exact_mod_cast h2
  have h4 : ⌊x * 100 + 1 / 2⌋ ≤ (10000 : ℤ) := by omega
  have h5 : ((⌊x * 100 + 1 / 2⌋ : ℤ) : ℚ) ≤ 10000 := by exact_mod_cast h4
  rw [round2]
  linarith

theorem mem_sortTiers {tiers : List Tier} {t : Tier} :
    t ∈ List.insertionSort (fun a b : Tier => b.min_quantity ≤ a.min_quantity) tiers ↔
      t ∈ tiers :=
  (List.perm_insertionSort _ tiers).mem_iff

theorem sortTiers_pairwise (tiers : List Tier) :
    (List.insertionSort (fun a b : Tier => b.min_quantity ≤ a.min_quantity) tiers).Pairwise
      (fun a b => b.min_quantity ≤ a.min_quantity) :=
  List.sorted_insertionSort _ tiers

/-- On a list sorted descending by threshold, the first tier whose threshold
the quantity meets has the largest such threshold. -/
theorem find_desc_is_max {q : ℚ} :
    ∀ {l : List Tier}, l.Pairwise (fun a b => b.min_quantity ≤ a.min_quantity) →
      ∀ {t : Tier}, l.find? (fun t => decide (t.min_quantity ≤ q)) = some t →
        ∀ u ∈ l, u.min_quantity ≤ q → u.min_quantity ≤ t.min_quantity := by
  intro l
  induction l with
  | nil => intro _ t ht; simp at ht
  | cons a l ih =>
    intro hp t ht u hu huq
    rw [List.pairwise_cons] at hp
    by_cases ha : a.min_quantity ≤ q
    · rw [List.find?_cons_of_pos _ (by simpa using ha)] at ht
      have hat : a = t := by simpa using ht
      rcases List.mem_cons.mp hu with rfl | hu
      · exact le_of_eq (by rw [hat])
      · exact le_trans (hp.1 u hu) (le_of_eq (by rw [hat]))
    · rw [List.find?_cons_of_neg _ (by simpa using ha)] at ht
      rcases List.mem_cons.mp hu with rfl | hu
      · exact absurd huq ha
      · exact ih hp.2 ht u hu huq

/-- Soundness of the tier resolver: a returned tier is a member of the table,
its threshold is met, and no met threshold in the table is larger. -/
theorem getTier_some_spec {tiers : List Tier} {q : ℚ} {t : Tier}
    (h : getTierForQuantity tiers q = some t) :
    t ∈ tiers ∧ t.min_quantity ≤ q ∧
      ∀ u ∈ tiers, u.min_quantity ≤ q → u.min_quantity ≤ t.min_quantity := by
  refine ⟨mem_sortTiers.mp (List.mem_of_find?_eq_some h), ?_, ?_⟩
  · simpa using List.find?_some h
  · intro u hu huq
    exact find_desc_is_max (sortTiers_pairwise tiers) h u (mem_sortTiers.mpr hu) huq

/-- The resolver returns `none` exactly when no threshold in the table is
met. -/
theorem getTier_none_iff {tiers : List Tier} {q : ℚ} :
    getTierForQuantity tiers q = none ↔ ∀ u ∈ tiers, q < u.min_quantity := by
  rw [getTierForQuantity, List.find?_eq_none]
  constructor
  · intro h u hu
    have := h u (mem_sortTiers.mpr hu)
    simpa [not_le] using this
  · intro h u hu
    have := h u (mem_sortTiers.mp hu)
    simpa [not_le] using this

/-- In a list pairwise distinct under a key, the key determines the element. -/
theorem pairwise_key_inj {α β : Type} {k : α → β} :
    ∀ {l : List α}, l.Pairwise (fun a b => k a ≠ k b) →
      ∀ {a}, a ∈ l → ∀ {b}, b ∈ l → k a = k b → a = b := by
  intro l
  induction l with
  | nil => intro _ a ha; simp at ha
  | cons x l ih =>
    intro hp a ha b hb hk
    rw [List.pairwise_cons] at hp
    rcases List.mem_cons.mp ha with ha1 | ha2
    · rcases List.mem_cons.mp hb with hb1 | hb2
      · rw [ha1, hb1]
      · rw [ha1] at hk ⊢
        exact absurd hk (hp.1 b hb2)
    · rcases List.mem_cons.mp hb with hb1 | hb2
      · rw [hb1] at hk ⊢
        exact absurd hk.symm (hp.1 a ha2)
      · exact ih hp.2 ha2 hb2 hk

/-- Each record kept by a `filterMap` charges one matching source element. -/
theorem countP_filterMap_le {α β : Type} (f : α → Option β) (p : β → Bool) (q : α → Bool)
    (h : ∀ a b, f a = some b → p b = true → q a = true) :
    ∀ l : List α, (l.filterMap f).countP p ≤ l.countP q := by
  intro l
  induction l with
  | nil => simp
  | cons a l ih =>
    rw [List.filterMap_cons]
    cases hfa : f a with
    | none =>
      rw [List.countP_cons]
      exact ih.trans (Nat.le_add_right _ _)
    | some b =>
      rw [List.countP_cons, List.countP_cons]
      by_cases hpb : p b = true
      · have hqa := h a b hfa hpb
        rw [if_pos hpb, if_pos hqa]
        exact Nat.add_le_add ih (le_refl 1)
      · rw [if_neg hpb]
        exact (ih.trans (Nat.le_add_right _ _)).trans (le_of_eq rfl)

/-- What a successful scan-loop iteration guarantees: the line is eligible
and the entry keeps its id and quantity. -/
theorem eligEntry_some_spec {line : CartLine} {e : EligibleLine}
    (hf : eligEntry line = some e) :
    lineEligible line = true ∧ e.id = line.id ∧ e.quantity = line.quantity := by
  cases hm : line.merchandise with
  | none => simp only [eligEntry, hm] at hf; exact Option.noConfusion hf
  | some m =>
    cases hp : m.product with
    | none => simp only [eligEntry, hm, hp] at hf; exact Option.noConfusion hf
    | some p =>
      simp only [eligEntry, hm, hp] at hf
      by_cases htag : p.hasAnyTag = true
      · rw [if_pos htag] at hf
        have he2 : e = ⟨line.id, line.quantity, p.title⟩ := by
          injection hf with h
          exact h.symm
        refine ⟨?_, by rw [he2], by rw [he2]⟩
        simp only [lineEligible, hm, hp]
        exact htag
      · rw [if_neg htag] at hf
        exact absurd hf (by simp)

/-- An eligible line produces a scan-loop entry with its id and quantity. -/
theorem eligEntry_of_eligible {line : CartLine} (hel : lineEligible line = true) :
    ∃ e : EligibleLine, eligEntry line = some e ∧ e.id = line.id ∧
      e.quantity = line.quantity := by
  simp only [lineEligible] at hel
  cases hm : line.merchandise with
  | none => simp only [hm] at hel; exact Bool.noConfusion hel
  | some m =>
    cases hp : m.product with
    | none => simp only [hm, hp] at hel; exact Bool.noConfusion hel
    | some p =>
      simp only [hm, hp] at hel
      refine ⟨⟨line.id, line.quantity, p.title⟩, ?_, rfl, rfl⟩
      simp only [eligEntry, hm, hp]
      rw [if_pos hel]

/-- An entry of `eligibleLines` comes from a tagged cart line and keeps its
id and quantity. -/
theorem eligibleLines_entry {lines : List CartLine} {e : EligibleLine}
    (he : e ∈ eligibleLines lines) :
    ∃ line ∈ lines, lineEligible line = true ∧ e.id = line.id ∧ e.quantity = line.quantity := by
  rw [eligibleLines, List.mem_filterMap] at he
  obtain ⟨line, hmem, hf⟩ := he
  exact ⟨line, hmem, eligEntry_some_spec hf⟩

/-- A tagged cart line contributes an entry to `eligibleLines` with the same
id and quantity. -/
theorem eligibleLines_mem_of {lines : List CartLine} {line : CartLine}
    (hmem : line ∈ lines) (hel : lineEligible line = true) :
    ∃ e ∈ eligibleLines lines, e.id = line.id ∧ e.quantity = line.quantity := by
  obtain ⟨e, hfe, hid, hq⟩ := eligEntry_of_eligible hel
  refine ⟨e, ?_, hid, hq⟩
  rw [eligibleLines, List.mem_filterMap]
  exact ⟨line, hmem, hfe⟩

/-- When classification, configuration, eligibility and aggregate tier all
succeed, `run` returns exactly the emission loop result. -/
theorem run_eq_lineDiscounts {input : FnInput} {ct : String} {cc : CatalogConfig}
    {tiers : List Tier} {aggregateTier : Tier}
    (h1 : getCatalogType input.cart.buyerIdentity = some ct)
    (h2 : configLookup (getConfig (input.shop.bind (·.metafield))) ct = some cc)
    (h3 : cc.tiers = some tiers)
    (h4 : tiers.length ≠ 0)
    (h5 : eligibleLines input.cart.lines ≠ [])
    (h6 : totalEligibleQuantity input.cart.lines ≠ 0)
    (h7 : getTierForQuantity tiers (totalEligibleQuantity input.cart.lines) = some aggregateTier) :
    run input = ⟨lineDiscounts tiers aggregateTier.discount_percent
      (totalEligibleQuantity input.cart.lines) (eligibleLines input.cart.lines)⟩ := by
  have c2 : ¬ ((eligibleLines input.cart.lines).length = 0 ∨
      totalEligibleQuantity input.cart.lines = 0) := by
    push_neg
    exact ⟨fun h => h5 (List.length_eq_zero.mp h), h6⟩
  simp only [run, h1, h2, h3, h7, if_neg h4, if_neg c2]

/-- Every branch of `run` yields either no discounts or the emission loop
result over the eligible lines. -/
theorem run_discounts_cases (input : FnInput) :
    (run input).discounts = [] ∨
      ∃ tiers p, (run input).discounts =
        lineDiscounts tiers p (totalEligibleQuantity input.cart.lines)
          (eligibleLines input.cart.lines) := by
  cases hct : getCatalogType input.cart.buyerIdentity with
  | none => left; simp [run, hct]
  | some ct =>
    cases hcc : configLookup (getConfig (input.shop.bind (·.metafield))) ct with
    | none => left; simp [run, hct, hcc]
    | some cc =>
      cases hts : cc.tiers with
      | none => left; simp [run, hct, hcc, hts]
      | some tiers =>
        by_cases c1 : tiers.length = 0
        · left; simp [run, hct, hcc, hts, c1]
        · by_cases c2 : (eligibleLines input.cart.lines).length = 0 ∨
              totalEligibleQuantity input.cart.lines = 0
          · left
            rcases c2 with h | h
            · have h0 : eligibleLines input.cart.lines = [] := List.length_eq_zero.mp h
              simp [run, hct, hcc, hts, h0]
            · simp [run, hct, hcc, hts, h]
          · cases hagg : getTierForQuantity tiers (totalEligibleQuantity input.cart.lines) with
            | none => left; simp [run, hct, hcc, hts, if_neg c1, if_neg c2, hagg]
            | some aggregateTier =>
              right
              push_neg at c2
              refine ⟨tiers, aggregateTier.discount_percent, ?_⟩
              rw [run_eq_lineDiscounts hct hcc hts c1
                (fun h => c2.1 (by rw [h]; rfl)) c2.2 hagg]

/-! ## Claims -/

/-- Claim C1: for `0 ≤ perLinePercent ≤ aggregatePercent < 100` and any price
`P > 0`, applying the per-line discount and then the differential returned by
`calculateDifferenceDiscount` to `P` equals applying the aggregate discount
once, within the tolerance induced by rounding the differential percent to
two decimal places (0.01 percentage points, hence `P * 0.01 / 100` on the
price). -/
theorem claim1_composition (P per agg : ℚ) (hP : 0 < P) (h0 : 0 ≤ per)
    (hpa : per ≤ agg) (h100 : agg < 100) :
    |P * (1 - per / 100) * (1 - calculateDifferenceDiscount agg per / 100)
      - P * (1 - agg / 100)| ≤ P * (1 / 10000) := by
  rw [calculateDifferenceDiscount]
  by_cases h1 : agg ≤ per
  · rw [if_pos h1]
    have heq : agg = per := le_antisymm h1 hpa
    have hz : P * (1 - per / 100) * (1 - 0 / 100) - P * (1 - agg / 100) = 0 := by
      rw [heq]; ring
    rw [hz, abs_zero]
    positivity
  · rw [if_neg h1]
    push_neg at h1
    by_cases h2 : per = 0
    · rw [if_pos h2]
      have hz : P * (1 - per / 100) * (1 - agg / 100) - P * (1 - agg / 100) = 0 := by
        rw [h2]; ring
      rw [hz, abs_zero]
      positivity
    · rw [if_neg h2]
      have hper100 : per < 100 := lt_of_le_of_lt hpa h100
      have hb : 0 < 1 - per / 100 := by linarith
      have hbne : (1 : ℚ) - per / 100 ≠ 0 := ne_of_gt hb
      set r : ℚ := (1 - (1 - agg / 100) / (1 - per / 100)) * 100 with hr
      clear_value r
      have h100ne : (100 : ℚ) - per ≠ 0 := ne_of_gt (by linarith)
      have hstep : (1 - per / 100) * r = ((1 - per / 100) - (1 - agg / 100)) * 100 := by
        rw [hr]
        field_simp
        ring
      have key : P * (1 - per / 100) * (1 - round2 r / 100) - P * (1 - agg / 100)
          = (P * (1 - per / 100) / 100) * (r - round2 r) := by
        linear_combination (-(P / 100)) * hstep
      rw [key, abs_mul]
      have habs : |P * (1 - per / 100) / 100| = P * (1 - per / 100) / 100 :=
        abs_of_pos (by positivity)
      have hr2 : |r - round2 r| ≤ 1 / 200 := by
        have h := abs_round2_sub_le r
        rwa [abs_sub_comm] at h
      have hble : 1 - per / 100 ≤ 1 := by linarith
      calc |P * (1 - per / 100) / 100| * |r - round2 r|
          ≤ (P * (1 - per / 100) / 100) * (1 / 200) := by
            rw [habs]
            exact mul_le_mul_of_nonneg_left hr2 (by positivity)
        _ ≤ (P * 1 / 100) * (1 / 200) := by
            have hm : P * (1 - per / 100) ≤ P * 1 :=
              mul_le_mul_of_nonneg_left hble hP.le
            nlinarith
        _ = P * (1 / 20000) := by ring
        _ ≤ P * (1 / 10000) := by nlinarith

/-- Witness for C1 at Scenario C percentages and price 100. -/
theorem claim1_composition_w :
    |(100 : ℚ) * (1 - 14.07 / 100) * (1 - calculateDifferenceDiscount 29.5 14.07 / 100)
      - 100 * (1 - 29.5 / 100)| ≤ 100 * (1 / 10000) :=
  claim1_composition 100 14.07 29.5 (by norm_num) (by norm_num) (by norm_num) (by norm_num)

/-- Claim C6, counterexample evaluation: neither calculator clamps invalid
inputs to zero.  The price-anchored calculator returns `-100` on negative
prices, and the percent-differential calculator returns `-100` on percent
inputs above 100; both propagate the negative value downstream. -/
theorem claim6_no_clamp :
    calculateDiscountPercent (-5) (-10) = -100 ∧
      calculateDifferenceDiscount 300 200 = -100 := by
  constructor
  · norm_num [calculateDiscountPercent, round2]
  · norm_num [calculateDifferenceDiscount, round2]

/-- Claim C7, counterexample: with `aggregatePercent = 99.999` and
`perLinePercent = 50`, both in `[0, 100)`, the exact differential is
`99.998`, which rounds to two decimals as exactly `100` — so the result is
not `< 100` as claimed. -/
theorem claim7_cex :
    (0 : ℚ) ≤ 99999 / 1000 ∧ (99999 / 1000 : ℚ) < 100 ∧ (0 : ℚ) ≤ 50 ∧
      (50 : ℚ) < 100 ∧ ¬ calculateDifferenceDiscount (99999 / 1000) 50 < 100 := by
  norm_num [calculateDifferenceDiscount, round2]

/-- Claim C7 (amended): for `aggregatePercent` and `perLinePercent` in
`[0, 100)`, the differential is `≥ 0` and `≤ 100`; the upper bound `< 100`
of the original claim fails only because rounding can land on `100`
exactly. -/
theorem claim7_range (agg per : ℚ) (h1 : 0 ≤ agg) (h2 : agg < 100)
    (h3 : 0 ≤ per) (h4 : per < 100) :
    0 ≤ calculateDifferenceDiscount agg per ∧ calculateDifferenceDiscount agg per ≤ 100 := by
  rw [calculateDifferenceDiscount]
  by_cases c1 : agg ≤ per
  · rw [if_pos c1]
    norm_num
  · rw [if_neg c1]
    push_neg at c1
    by_cases c2 : per = 0
    · rw [if_pos c2]
      exact ⟨h1, h2.le⟩
    · rw [if_neg c2]
      have hper : 0 < per := lt_of_le_of_ne h3 (Ne.symm c2)
      have hb : 0 < 1 - per / 100 := by linarith
      have ht : 0 < 1 - agg / 100 := by linarith
      have hlt : (1 - agg / 100) / (1 - per / 100) < 1 := by
        rw [div_lt_one hb]; linarith
      have hgt : 0 < (1 - agg / 100) / (1 - per / 100) := div_pos ht hb
      constructor
      · apply round2_nonneg
        nlinarith
      · apply round2_le_100
        nlinarith

/-- Witness for the amended C7 at the default-table percentages. -/
theorem claim7_range_w :
    0 ≤ calculateDifferenceDiscount 29.5 14.07 ∧
      calculateDifferenceDiscount 29.5 14.07 ≤ 100 :=
  claim7_range 29.5 14.07 (by norm_num) (by norm_num) (by norm_num) (by norm_num)

/-- Claim C2: among the tiers whose threshold is at most the quantity,
`getTierForQuantity` returns a member with the largest threshold; it returns
`none` exactly when no threshold is met; and on tables with pairwise
distinct thresholds the result is the same for every permutation of the
input list. -/
theorem claim2_tier_resolver (tiers alt : List Tier) (q : ℚ) :
    (∀ t, getTierForQuantity tiers q = some t →
        t ∈ tiers ∧ t.min_quantity ≤ q ∧
          ∀ u ∈ tiers, u.min_quantity ≤ q → u.min_quantity ≤ t.min_quantity) ∧
    (getTierForQuantity tiers q = none ↔ ∀ u ∈ tiers, q < u.min_quantity) ∧
    (tiers.Pairwise (fun a b => a.min_quantity ≠ b.min_quantity) → tiers.Perm alt →
      getTierForQuantity tiers q = getTierForQuantity alt q) := by
  refine ⟨fun t ht => getTier_some_spec ht, getTier_none_iff, fun hdist hperm => ?_⟩
  cases h1 : getTierForQuantity tiers q with
  | none =>
    cases h2 : getTierForQuantity alt q with
    | none => rfl
    | some u =>
      obtain ⟨hmem, hle, _⟩ := getTier_some_spec h2
      have hq : q < u.min_quantity := (getTier_none_iff.mp h1) u (hperm.mem_iff.mpr hmem)
      exact absurd hle (not_le.mpr hq)
  | some t =>
    cases h2 : getTierForQuantity alt q with
    | none =>
      obtain ⟨hmem, hle, _⟩ := getTier_some_spec h1
      have hq : q < t.min_quantity := (getTier_none_iff.mp h2) t (hperm.mem_iff.mp hmem)
      exact absurd hle (not_le.mpr hq)
    | some u =>
      obtain ⟨hmem1, hle1, hmax1⟩ := getTier_some_spec h1
      obtain ⟨hmem2, hle2, hmax2⟩ := getTier_some_spec h2
      have hm2 : u ∈ tiers := hperm.mem_iff.mpr hmem2
      have hm1 : t ∈ alt := hperm.mem_iff.mp hmem1
      have e1 : u.min_quantity ≤ t.min_quantity := hmax1 u hm2 hle2
      have e2 : t.min_quantity ≤ u.min_quantity := hmax2 t hm1 hle1
      have htu : t = u := pairwise_key_inj hdist hmem1 hm2 (le_antisymm e2 e1)
      rw [htu]

/-- Witness for C2: the default guidefitters table and its reversal resolve
quantity 50 identically. -/
theorem claim2_tier_resolver_w :
    getTierForQuantity [⟨12, 14.07⟩, ⟨48, 29.5⟩] 50
      = getTierForQuantity [⟨48, 29.5⟩, ⟨12, 14.07⟩] 50 :=
  (claim2_tier_resolver [⟨12, 14.07⟩, ⟨48, 29.5⟩] [⟨48, 29.5⟩, ⟨12, 14.07⟩] 50).2.2
    (by norm_num [List.pairwise_cons])
    (List.Perm.swap _ _ _)

/-- Claim C5: the identity classifier returns `none` when the buyer has no
catalog label (the optional chain breaks, or the title is the empty — hence
falsy — string); with a label it checks the segment B keyword "reseller"
first, even when "guidefitter" also occurs, and otherwise returns segment A
("guidefitters"), including the permissive fallback when neither keyword
matches.  Case-insensitivity is the `jsToLower` normalisation. -/
theorem claim5_classifier (b : Option BuyerIdentity) :
    (catalogTitleOf b = none → getCatalogType b = none) ∧
    (catalogTitleOf b = some ("") → getCatalogType b = none) ∧
    (∀ s, catalogTitleOf b = some s → s ≠ "" →
      jsIncludes (jsToLower s) ("reseller") = true → getCatalogType b = some ("resellers")) ∧
    (∀ s, catalogTitleOf b = some s → s ≠ "" →
      jsIncludes (jsToLower s) ("reseller") = false →
        getCatalogType b = some ("guidefitters")) := by
  refine ⟨fun h => ?_, fun h => ?_, fun s hs hne hres => ?_, fun s hs hne hres => ?_⟩
  · simp [getCatalogType, h]
  · simp [getCatalogType, h]
  · simp only [getCatalogType, hs]
    rw [if_neg hne]
    simp [hres]
  · simp only [getCatalogType, hs]
    rw [if_neg hne]
    simp [hres]

/-- Witness for C5: a label containing both keywords classifies as segment B
("resellers"). -/
theorem claim5_classifier_w :
    getCatalogType (some ⟨some ⟨some ⟨some ⟨some ("Guidefitter Reseller 2024")⟩⟩⟩⟩)
      = some ("resellers") :=
  (claim5_classifier _).2.2.1 ("Guidefitter Reseller 2024") rfl (by decide) (by decide)

/-- Claim C3 (amended): in the percent-differential implementation, when the
buyer is classified, at least one eligible line exists, and the aggregate
eligible quantity meets no tier threshold, `run` returns an empty discount
list.  The price-anchored implementation instead falls back to the segment
`base_percent` and can emit discounts; see the counterexample. -/
theorem claim3_below_lowest (input : FnInput) (ct : String) (cc : CatalogConfig)
    (tiers : List Tier)
    (h1 : getCatalogType input.cart.buyerIdentity = some ct)
    (h2 : configLookup (getConfig (input.shop.bind (·.metafield))) ct = some cc)
    (h3 : cc.tiers = some tiers)
    (h5 : eligibleLines input.cart.lines ≠ [])
    (h7 : getTierForQuantity tiers (totalEligibleQuantity input.cart.lines) = none) :
    run input = ⟨[]⟩ := by
  by_cases c1 : tiers = []
  · simp [run, h1, h2, h3, c1]
  · by_cases c2 : totalEligibleQuantity input.cart.lines = 0
    · simp [run, h1, h2, h3, c1, c2]
    · simp [run, h1, h2, h3, c1, c2, h5, h7]

/-- Witness for C3 at Scenario D: aggregate 8 yields no discounts. -/
theorem claim3_below_lowest_w : run scenarioDInput = ⟨[]⟩ := by
  have htot : totalEligibleQuantity scenarioDInput.cart.lines = 8 := by
    simp [totalEligibleQuantity, eligibleLines, eligEntry, scenarioDInput]
  refine claim3_below_lowest scenarioDInput ("guidefitters")
    ⟨some [⟨12, 14.07⟩, ⟨48, 29.5⟩]⟩ [⟨12, 14.07⟩, ⟨48, 29.5⟩]
    (by decide) rfl rfl (by decide) ?_
  rw [htot]
  norm_num [getTierForQuantity, List.insertionSort, List.orderedInsert, List.find?]

/-- Claim C3, counterexample: on `cexPAInput` the buyer is classified, an
eligible line exists, and the aggregate quantity (10) meets no tier, yet the
price-anchored `run` emits a 45% discount record instead of an empty list. -/
theorem claim3_cex :
    getCatalogType cexPAInput.cart.buyerIdentity = some ("resellers") ∧
      eligibleLinesPA cexPAInput.cart.lines ≠ [] ∧
      getTierForQuantityPA (some [⟨48, 50⟩]) (aggregateQuantityPA cexPAInput.cart.lines) = none ∧
      runPA cexPAInput = ⟨[⟨10, "L1", 45⟩]⟩ := by
  have hct : getCatalogType cexPAInput.cart.buyerIdentity = some ("resellers") := by decide
  have helig : eligibleLinesPA cexPAInput.cart.lines
      = [⟨"L1", 10, 100, 100, "Meal 15 Pack"⟩] := rfl
  have haq : aggregateQuantityPA cexPAInput.cart.lines = 10 := by
    simp [aggregateQuantityPA, helig]
  have htier : getTierForQuantityPA (some [⟨(48 : ℚ), 50⟩]) 10 = none := by
    norm_num [getTierForQuantityPA, List.insertionSort, List.orderedInsert, List.find?]
  refine ⟨hct, by rw [helig]; simp, by rw [haq]; exact htier, ?_⟩
  have hcalc : calculateDiscountPercent 100 (100 * (1 - 45 / 100)) = 45 := by
    norm_num [calculateDiscountPercent, round2]
  have hcfg : getTierConfig (cexPAInput.shop.bind (·.tierConfigMetafield))
      = some { guidefitters := none
               resellers := some { base_percent := some 45, tiers := some [⟨48, 50⟩] } } := rfl
  have hclk : configLookupPA
      { guidefitters := none
        resellers := some { base_percent := some 45, tiers := some [⟨48, 50⟩] } } "resellers"
      = some { base_percent := some 45, tiers := some [⟨48, 50⟩] } := rfl
  simp only [runPA, hct, hcfg, hclk, helig, haq]
  norm_num [htier, List.filterMap_cons, calculateDiscountPercent, round2]

/-- Claim C4 (amended): an absent or unparseable configuration payload never
throws — both loaders are total functions.  In the percent-differential
implementation `getConfig` substitutes the built-in `DEFAULT_CONFIG` and the
evaluation continues; in the price-anchored implementation `getTierConfig`
yields no configuration (that file has no built-in default) and `run` exits
with an empty discount list. -/
theorem claim4_config_fallback (m : Option Metafield) (mp : Option MetafieldPA) :
    ((m.bind (·.value) = none ∨ m.bind (·.value) = some .invalid) →
      getConfig m = DEFAULT_CONFIG) ∧
    ((mp.bind (·.value) = none ∨ mp.bind (·.value) = some .invalid) →
      getTierConfig mp = none) := by
  constructor
  · intro h
    cases m with
    | none => rfl
    | some mf =>
      cases hv : mf.value with
      | none => simp [getConfig, hv]
      | some v =>
        rcases h with h | h
        · simp [hv] at h
        · simp [hv] at h
          simp [getConfig, hv, h, jsonParse]
  · intro h
    cases mp with
    | none => rfl
    | some mf =>
      cases hv : mf.value with
      | none => simp [getTierConfig, hv]
      | some v =>
        rcases h with h | h
        · simp [hv] at h
        · simp [hv] at h
          simp [getTierConfig, hv, h, jsonParsePA]

/-- Witness for C4: both loaders on an absent metafield. -/
theorem claim4_config_fallback_w :
    getConfig none = DEFAULT_CONFIG ∧ getTierConfig none = none :=
  ⟨(claim4_config_fallback none none).1 (Or.inl rfl),
   (claim4_config_fallback none none).2 (Or.inl rfl)⟩

/-- Claim C4, counterexample: in the price-anchored implementation a
malformed payload yields no configuration at all — no default table is
substituted — and `run` exits with an empty discount list even for a
qualifying cart. -/
theorem claim4_cex :
    getTierConfig (some ⟨some .invalid⟩) = none ∧ runPA cexMalformedInput = ⟨[]⟩ := by
  constructor
  · rfl
  · have hct : getCatalogType cexMalformedInput.cart.buyerIdentity = some ("resellers") := by
      decide
    have hcfg : getTierConfig (cexMalformedInput.shop.bind (·.tierConfigMetafield)) = none :=
      rfl
    simp [runPA, hct, hcfg]

/-- Claim C9: both engines are deterministic — invocations on structurally
equal inputs return equal outputs.  Statelessness holds by construction of
the embedding: the source files declare no mutable module state (the only
module-level binding, `DEFAULT_CONFIG`, is a constant that is never
written), so both `run` functions are pure functions of their input
snapshot. -/
theorem claim9_deterministic (a b : FnInput) (pa pb : FnInputPA) :
    (a = b → run a = run b) ∧ (pa = pb → runPA pa = runPA pb) :=
  ⟨fun h => by rw [h], fun h => by rw [h]⟩

/-- Witness for C9 at concrete inputs. -/
theorem claim9_deterministic_w :
    run scenarioDInput = run scenarioDInput ∧ runPA cexPAInput = runPA cexPAInput :=
  ⟨(claim9_deterministic scenarioDInput scenarioDInput cexPAInput cexPAInput).1 rfl,
   (claim9_deterministic scenarioDInput scenarioDInput cexPAInput cexPAInput).2 rfl⟩

/-- Claim C10: in the percent-differential implementation, when exactly one
cart line is eligible the aggregate quantity equals that line quantity, the
per-line tier equals the aggregate tier, the computed differential is 0, and
`run` returns an empty discount list. -/
theorem claim10_single_line (input : FnInput)
    (h : (eligibleLines input.cart.lines).length = 1) :
    run input = ⟨[]⟩ := by
  obtain ⟨l, hl⟩ := List.length_eq_one.mp h
  cases hct : getCatalogType input.cart.buyerIdentity with
  | none => simp [run, hct]
  | some ct =>
    cases hcc : configLookup (getConfig (input.shop.bind (·.metafield))) ct with
    | none => simp [run, hct, hcc]
    | some cc =>
      cases hts : cc.tiers with
      | none => simp [run, hct, hcc, hts]
      | some tiers =>
        by_cases c1 : tiers = []
        · simp [run, hct, hcc, hts, c1]
        · have htot : totalEligibleQuantity input.cart.lines = l.quantity := by
            simp [totalEligibleQuantity, hl]
          by_cases c2 : totalEligibleQuantity input.cart.lines = 0
          · simp [run, hct, hcc, hts, c1, c2]
          · cases hagg : getTierForQuantity tiers (totalEligibleQuantity input.cart.lines) with
            | none => simp [run, hct, hcc, hts, c1, c2, hagg, hl]
            | some aggregateTier =>
              have hrun := run_eq_lineDiscounts hct hcc hts
                (fun hh => c1 (List.length_eq_zero.mp hh))
                (by rw [hl]; exact List.cons_ne_nil l []) c2 hagg
              rw [hrun, hl]
              have hps : perSkuDiscountFor tiers l.quantity
                  = aggregateTier.discount_percent := by
                rw [perSkuDiscountFor, ← htot, hagg]
              simp [lineDiscounts, lineDiscountEntry, hps, calculateDifferenceDiscount]

/-- Witness for C10: one eligible line of 12 units yields no discounts even
though 12 meets the lowest tier. -/
theorem claim10_single_line_w : run singleLineInput = ⟨[]⟩ :=
  claim10_single_line singleLineInput (by decide)

/-- What a successful emission-loop iteration guarantees: the record targets
the line id, and its computed differential is strictly positive. -/
theorem lineDiscountEntry_some_spec {tiers : List Tier} {p total : ℚ}
    {e : EligibleLine} {r : DiscountRecord}
    (hf : lineDiscountEntry tiers p total e = some r) :
    r.targetLineId = e.id ∧
      0 < calculateDifferenceDiscount p (perSkuDiscountFor tiers e.quantity) := by
  by_cases hd : 0 < calculateDifferenceDiscount p (perSkuDiscountFor tiers e.quantity)
  · rw [lineDiscountEntry, if_pos hd] at hf
    have hr : r = ⟨total, e.id,
        calculateDifferenceDiscount p (perSkuDiscountFor tiers e.quantity)⟩ := by
      injection hf with h
      exact h.symm
    exact ⟨by rw [hr], hd⟩
  · rw [lineDiscountEntry, if_neg hd] at hf
    exact Option.noConfusion hf

/-- Claim C8: `run` emits at most one record per cart line (counted per line
id against the multiset of line ids), emits records only for eligible
(tagged) lines, and — on the emission path, for carts with pairwise distinct
line ids — an eligible line receives a record exactly when its computed
differential is strictly positive. -/
theorem claim8_emission (input : FnInput) :
    (∀ i : String,
      (run input).discounts.countP (fun r => decide (r.targetLineId = i)) ≤
        input.cart.lines.countP (fun line => decide (line.id = i))) ∧
    (∀ r ∈ (run input).discounts, ∃ line ∈ input.cart.lines,
      lineEligible line = true ∧ r.targetLineId = line.id) ∧
    (∀ ct cc tiers aggregateTier,
      getCatalogType input.cart.buyerIdentity = some ct →
      configLookup (getConfig (input.shop.bind (·.metafield))) ct = some cc →
      cc.tiers = some tiers → tiers ≠ [] →
      eligibleLines input.cart.lines ≠ [] →
      totalEligibleQuantity input.cart.lines ≠ 0 →
      getTierForQuantity tiers (totalEligibleQuantity input.cart.lines) = some aggregateTier →
      (input.cart.lines.map (·.id)).Nodup →
      ∀ line ∈ input.cart.lines, lineEligible line = true →
        ((∃ r ∈ (run input).discounts, r.targetLineId = line.id) ↔
          0 < calculateDifferenceDiscount aggregateTier.discount_percent
            (perSkuDiscountFor tiers line.quantity))) := by
  refine ⟨?_, ?_, ?_⟩
  · intro i
    rcases run_discounts_cases input with h | ⟨tiers, p, h⟩
    · rw [h]; simp
    · rw [h]
      have step1 : (lineDiscounts tiers p (totalEligibleQuantity input.cart.lines)
            (eligibleLines input.cart.lines)).countP (fun r => decide (r.targetLineId = i))
          ≤ (eligibleLines input.cart.lines).countP (fun e => decide (e.id = i)) := by
        rw [lineDiscounts]
        apply countP_filterMap_le
        intro a b hab hpb
        obtain ⟨hid, _⟩ := lineDiscountEntry_some_spec hab
        rw [hid] at hpb
        exact hpb
      have step2 : (eligibleLines input.cart.lines).countP (fun e => decide (e.id = i))
          ≤ input.cart.lines.countP (fun line => decide (line.id = i)) := by
        rw [eligibleLines]
        apply countP_filterMap_le
        intro a b hab hpb
        obtain ⟨_, hid, _⟩ := eligEntry_some_spec hab
        rw [hid] at hpb
        exact hpb
      exact step1.trans step2
  · intro r hr
    rcases run_discounts_cases input with h | ⟨tiers, p, h⟩
    · rw [h] at hr
      exact absurd hr (by simp)
    · rw [h, lineDiscounts, List.mem_filterMap] at hr
      obtain ⟨e, he, hfe⟩ := hr
      obtain ⟨hid_r, _⟩ := lineDiscountEntry_some_spec hfe
      obtain ⟨line, hline, hel, hid_e, _⟩ := eligibleLines_entry he
      exact ⟨line, hline, hel, by rw [hid_r, hid_e]⟩
  · intro ct cc tiers aggregateTier h1 h2 h3 h4 h5 h6 h7 hnodup line hline hel
    have h4' : tiers.length ≠ 0 := fun hh => h4 (List.length_eq_zero.mp hh)
    have hrun := run_eq_lineDiscounts h1 h2 h3 h4' h5 h6 h7
    rw [hrun]
    have hpair : input.cart.lines.Pairwise (fun a b => a.id ≠ b.id) :=
      List.pairwise_map.mp hnodup
    constructor
    · rintro ⟨r, hr, hrid⟩
      rw [lineDiscounts, List.mem_filterMap] at hr
      obtain ⟨e, he, hfe⟩ := hr
      obtain ⟨hid_r, hd_pos⟩ := lineDiscountEntry_some_spec hfe
      obtain ⟨line2, hline2, _, hid_e, hq2⟩ := eligibleLines_entry he
      have hsame : line2 = line :=
        pairwise_key_inj hpair hline2 hline (by rw [← hid_e, ← hid_r, hrid])
      rw [← hsame, ← hq2]
      exact hd_pos
    · intro hd
      obtain ⟨e, he, hid, hq⟩ := eligibleLines_mem_of hline hel
      refine ⟨⟨totalEligibleQuantity input.cart.lines, e.id,
        calculateDifferenceDiscount aggregateTier.discount_percent
          (perSkuDiscountFor tiers e.quantity)⟩, ?_, by rw [hid]⟩
      rw [lineDiscounts, List.mem_filterMap]
      refine ⟨e, he, ?_⟩
      rw [lineDiscountEntry, if_pos (by rw [hq]; exact hd)]

/-- Witness for C8 at Scenario B: the 6-unit line receives a record exactly
when its differential against the aggregate tier is positive. -/
theorem claim8_emission_w :
    (∃ r ∈ (run scenarioBInput).discounts, r.targetLineId = "L2") ↔
      0 < calculateDifferenceDiscount (14.07 : ℚ)
        (perSkuDiscountFor [⟨12, 14.07⟩, ⟨48, 29.5⟩] 6) := by
  have htot : totalEligibleQuantity scenarioBInput.cart.lines = 18 := by
    simp [totalEligibleQuantity, eligibleLines, eligEntry, scenarioBInput]
    norm_num
  have h7 : getTierForQuantity [⟨12, 14.07⟩, ⟨48, 29.5⟩]
      (totalEligibleQuantity scenarioBInput.cart.lines) = some ⟨12, 14.07⟩ := by
    rw [htot]
    norm_num [getTierForQuantity, List.insertionSort, List.orderedInsert, List.find?]
  have h := (claim8_emission scenarioBInput).2.2 ("guidefitters")
    ⟨some [⟨12, 14.07⟩, ⟨48, 29.5⟩]⟩ [⟨12, 14.07⟩, ⟨48, 29.5⟩] ⟨12, 14.07⟩
    (by decide) rfl rfl (by simp) (by decide)
    (by rw [htot]; norm_num) h7 (by decide)
    { id := "L2", quantity := 6, merchandise := some ⟨some ⟨"Butter Chicken 15 Pack", true⟩⟩ }
    (by simp [scenarioBInput]) rfl
  exact h
